import Mathlib

/-!
# Verification of the exaMCP spreadsheet-analysis front end

Shallow embedding of the cache orchestration in `App.AnalyzeExcelFile`
(backend/main.go), of the prompt-generation helpers in
backend/service/mcp/prompt_generator.go, and of the requirement
classification in the advanced prompt builder.

External collaborators that live in the `excel` package (the hash
function `excel.HashFilePath`, the cache reader/writer and the
underlying analyzer `excel.AnalyzeExcelFile`) are not part of the
sources; they are passed to the embedded orchestration as explicit
oracle parameters, so every theorem quantifies over their behaviour.
-/

namespace ExaMCP

/-- Analysis options handed to the underlying analyzer
(`excel.AnalysisOptions` as built in backend/main.go). -/
structure AnalysisOptions where
  MaxSheets : Int
  MaxRows : Int
  MaxSamples : Int
  UseAdvanced : Bool
deriving DecidableEq, Repr

/-- The Excel section of the application configuration
(`a.config.Excel`). -/
structure ExcelConfig where
  MaxSheets : Int
  MaxRows : Int
  MaxSamples : Int
  UseAdvanced : Bool
deriving DecidableEq, Repr

/-- The System section of the application configuration
(`a.config.System`). -/
structure SystemConfig where
  CacheEnabled : Bool
  CacheDir : String
deriving DecidableEq, Repr

/-- The slice of `a.config` that `App.AnalyzeExcelFile` reads. -/
structure AppConfig where
  Excel : ExcelConfig
  System : SystemConfig
deriving DecidableEq, Repr

/-- `options := excel.AnalysisOptions{...}` built from the config in
`App.AnalyzeExcelFile` (backend/main.go lines 438-444). -/
def optionsOf (cfg : AppConfig) : AnalysisOptions :=
  { MaxSheets := cfg.Excel.MaxSheets
    MaxRows := cfg.Excel.MaxRows
    MaxSamples := cfg.Excel.MaxSamples
    UseAdvanced := cfg.Excel.UseAdvanced }

/-- `fmt.Sprintf("%x", n)`: lowercase hexadecimal digits of `n`. -/
def hexString (n : Nat) : String :=
  String.mk (Nat.toDigits 16 n)

/-- The cache file name used by `App.AnalyzeExcelFile`:
`filepath.Join(a.config.System.CacheDir, fmt.Sprintf("%x.json",
excel.HashFilePath(filePath)))` (backend/main.go line 453).  The hash
function `excel.HashFilePath` is outside the sources, so it is the
oracle parameter `h`; the file path is its only argument. -/
def cacheKey (h : String → Nat) (cacheDir filePath : String) : String :=
  cacheDir ++ "/" ++ hexString (h filePath) ++ ".json"

/-- The on-disk cache directory, modelled as an association list from
cache-file names to stored analyses (first binding wins, as a fresh
write replaces the file). -/
abbrev Store (α : Type) : Type := List (String × α)

/-- Reading the cache file `k` from the store. -/
def storeLookup {α : Type} (s : Store α) (k : String) : Option α :=
  (s.find? (fun p => p.fst == k)).map Prod.snd

/-- Writing analysis `a` to the cache file `k`. -/
def storeInsert {α : Type} (s : Store α) (k : String) (a : α) : Store α :=
  (k, a) :: s

/-- `a.wrapError("EXCEL_ANALYSIS_FAILED", err, nil)` as it tags the
returned error. -/
def wrapError (code msg : String) : String :=
  code ++ ": " ++ msg

/-- Outcome of one `App.AnalyzeExcelFile` call: the returned value or
error, the cache store after the call, and whether the underlying
analyzer `excel.AnalyzeExcelFile` was invoked. -/
structure RunResult (α : Type) where
  result : Except String α
  store : Store α
  computeInvoked : Bool

/-- The cache orchestration of `App.AnalyzeExcelFile`
(backend/main.go lines 446-511).  `h` stands for
`excel.HashFilePath`; `loadFault` injects an I/O failure into
`excel.LoadAnalysisFromCache` (a failure or a missing entry both
surface there as a non-nil error); `saveFault` injects a failure into
`excel.SaveAnalysisToCache` (whose error the code ignores); `compute`
stands for `excel.AnalyzeExcelFile(filePath, options)` under the
file's current content.  On a successful load the loaded analysis is
returned as is; on a load error the analyzer runs and, on success,
its result is saved and returned; analyzer errors are wrapped with
code `EXCEL_ANALYSIS_FAILED`. -/
def AnalyzeExcelFile {α : Type} (h : String → Nat) (cfg : AppConfig)
    (filePath : String) (store : Store α) (loadFault saveFault : Bool)
    (compute : AnalysisOptions → Except String α) : RunResult α :=
  if cfg.System.CacheEnabled then
    let key := cacheKey h cfg.System.CacheDir filePath
    let loaded : Except String α :=
      if loadFault then Except.error "cache read failed"
      else match storeLookup store key with
        | some a => Except.ok a
        | none => Except.error "cache miss"
    match loaded with
    | Except.ok a => ⟨Except.ok a, store, false⟩
    | Except.error _ =>
      match compute (optionsOf cfg) with
      | Except.ok a =>
        ⟨Except.ok a, if saveFault then store else storeInsert store key a, true⟩
      | Except.error e =>
        ⟨Except.error (wrapError "EXCEL_ANALYSIS_FAILED" e), store, true⟩
  else
    match compute (optionsOf cfg) with
    | Except.ok a => ⟨Except.ok a, store, true⟩
    | Except.error e =>
      ⟨Except.error (wrapError "EXCEL_ANALYSIS_FAILED" e), store, true⟩

/-! ## Prompt generation (backend/service/mcp/prompt_generator.go) -/

/-- `Relationship` between data ranges.  The Go field named `Type` is
rendered here as `RelationType` (`Type` is reserved in Lean). -/
structure Relationship where
  TargetRange : String
  RelationType : String
  SourceField : String
  TargetField : String
deriving DecidableEq, Repr

/-- `DataRange`: an Excel data-range structure.  The Go field
`DataTypes map[string]string` is modelled as an association list. -/
structure DataRange where
  RangeAddress : String
  Headers : List String
  DataRows : Int
  DataTypes : List (String × String)
  SampleData : List (List String)
  Description : String
  HasHeaders : Bool
  SheetName : String
  Relationships : List Relationship
deriving DecidableEq, Repr

/-- `PromptConfig`: configuration options for prompt generation.
`TemplateVariables map[string]string` is an association list. -/
structure PromptConfig where
  Language : String
  IncludeExamples : Bool
  UseAdvancedContext : Bool
  MaxSampleRows : Int
  HighlightKeyColumns : List String
  TemplateVariables : List (String × String)
  OutputType : String
  DetailLevel : String
  IncludeModules : List String
  TargetExcelVersion : String
deriving DecidableEq, Repr

/-- `limitSampleData(sampleData, maxRows)`: returns `sampleData`
unchanged when `len(sampleData) <= maxRows`, otherwise the Go slice
`sampleData[:maxRows]`.  Slicing with a negative bound panics at run
time in Go, which the embedding renders as `none`. -/
def limitSampleData (sampleData : List (List String)) (maxRows : Int) :
    Option (List (List String)) :=
  if (sampleData.length : Int) ≤ maxRows then some sampleData
  else if 0 ≤ maxRows then some (sampleData.take maxRows.toNat)
  else none

/-- The loop body of `columnLetterFromIndex`: each iteration prepends
`'A' + index % 26` and continues with `index/26 - 1` while the index
is non-negative.  The loop runs at most `index + 1` times (the index
strictly decreases), so it is embedded with that much fuel. -/
def colLetterAux : Nat → Nat → String
  | 0, _ => ""
  | f + 1, i =>
    if i < 26 then String.singleton (Char.ofNat (65 + i))
    else colLetterAux f (i / 26 - 1) ++ String.singleton (Char.ofNat (65 + i % 26))

/-- `columnLetterFromIndex(index)`: converts a 0-based index to an
Excel column letter. -/
def columnLetterFromIndex (index : Nat) : String :=
  colLetterAux (index + 1) index

/-- `generateColumnLetters(count)`: the letters of columns
`0 .. count-1` in order. -/
def generateColumnLetters (count : Nat) : List String :=
  (List.range count).map columnLetterFromIndex

/-- Specification-side valuation: the bijective base-26 value of a
column name, `"A" = 1`, ..., `"Z" = 26`, `"AA" = 27`, reading
characters most significant first.  The spec's convention
`A, B, ..., Z, AA, AB, ...` names column index `i` by the unique
all-uppercase string of value `i + 1`. -/
def colVal (s : String) : Nat :=
  s.data.foldl (fun acc c => 26 * acc + (c.toNat - 64)) 0

/-- `fallbackPrompt(structure, userRequirement, config, err)`: the
simple prompt produced when template processing fails.  `errMsg` is
the formatted `%v` of the template error; `config` is accepted and
ignored exactly as in the source. -/
def fallbackPrompt (s : DataRange) (userRequirement : String)
    (_cfg : PromptConfig) (errMsg : String) : String :=
  "# TASK: Generate Excel VBA script based on user requirements\n\n" ++
  ("ERROR: Template processing failed: " ++ errMsg ++ ". Using fallback prompt.\n\n") ++
  "## EXCEL STRUCTURE\n" ++
  ("- Sheet: " ++ s.SheetName ++ "\n") ++
  ("- Range: " ++ s.RangeAddress ++ "\n") ++
  ("- Headers: " ++ String.intercalate ", " s.Headers ++ "\n") ++
  ("- Data Rows: " ++ toString s.DataRows ++ "\n\n") ++
  "## USER REQUIREMENT\n" ++ userRequirement ++ "\n\n" ++
  "## OUTPUT INSTRUCTIONS\n" ++ "Generate VBA code that fulfills the user requirement.\n"

/-- `GenerateExaMCPPromptWithConfig(structure, userRequirement,
config)`.  The template data map is built first — evaluating
`limitSampleData(structure.SampleData, config.MaxSampleRows)`, whose
panic the embedding propagates as `none` — and then
`template.Parse`/`template.Execute` run; both template steps are the
oracle `tmpl` (they depend on the Go template engine, outside the
sources): `Except.ok rendered` is a successful parse and execution,
`Except.error e` is the formatted error of whichever step failed, in
which case the fallback prompt is returned. -/
def GenerateExaMCPPromptWithConfig (s : DataRange) (userRequirement : String)
    (config : PromptConfig) (tmpl : Except String String) : Option String :=
  match limitSampleData s.SampleData config.MaxSampleRows with
  | none => none
  | some _ =>
    match tmpl with
    | Except.ok rendered => some rendered
    | Except.error e => some (fallbackPrompt s userRequirement config e)

/-! ## Requirement classification (advanced prompt builder) -/

/-- Helper for `strings.Contains`: does `pat` occur inside `s`? -/
def goContainsAux : List Char → List Char → Bool
  | pat, [] => pat.isEmpty
  | pat, c :: rest => pat.isPrefixOf (c :: rest) || goContainsAux pat rest

/-- `strings.Contains(s, sub)`. -/
def goContains (s sub : String) : Bool :=
  goContainsAux sub.data s.data

/-- Loop of `strings.Count` for a non-empty pattern: non-overlapping
occurrences scanned left to right.  Each step consumes at least one
character of `s`, so `s.length + 1` fuel always suffices. -/
def strCountAux : Nat → List Char → List Char → Nat
  | 0, _, _ => 0
  | fuel + 1, s, pat =>
    if pat.isPrefixOf s then 1 + strCountAux fuel (s.drop pat.length) pat
    else
      match s with
      | [] => 0
      | _ :: rest => strCountAux fuel rest pat

/-- `strings.Count(s, pat)`: for an empty pattern, one more than the
number of characters; otherwise the number of non-overlapping
occurrences of `pat` in `s`. -/
def strCount (s pat : String) : Nat :=
  if pat.data.isEmpty then s.data.length + 1
  else strCountAux (s.data.length + 1) s.data pat.data

/-- `strings.ToLower`, character by character (exact on the ASCII
patterns the classifier matches against). -/
def toLowerStr (s : String) : String :=
  String.mk (s.data.map Char.toLower)

/-- The `taskPatterns` literal of `classifyUserRequirement`, in source
order. -/
def taskPatterns : List (String × List String) :=
  [("Reporting",
    ["report", "chart", "graph", "visualize", "dashboard", "summary", "pivot",
     "statistics", "trend", "analysis", "kpi", "metric", "visualization"]),
   ("DataProcessing",
    ["filter", "sort", "clean", "calculate", "transform", "convert", "normalize",
     "aggregate", "group", "consolidate", "merge", "join", "data processing"]),
   ("UserInterface",
    ["form", "button", "userform", "interface", "ui", "input", "dialog",
     "dropdown", "checkbox", "interactive", "menu", "user experience"]),
   ("Automation",
    ["automate", "schedule", "batch", "periodic", "monitor", "workflow",
     "trigger", "event", "automatic", "background", "routine"]),
   ("DataValidation",
    ["validate", "verify", "check", "ensure", "integrity", "constraint",
     "rule", "validation", "error checking", "valid", "format checking"])]

/-- Total keyword score of one task type: the sum of
`strings.Count(req, pattern)` over its patterns (the Go code adds
`count` only when `count > 0`, which sums to the same value). -/
def scoreOf (req : String) (patterns : List String) : Nat :=
  patterns.foldl (fun acc p => acc + strCount req p) 0

/-- Score of a named task type against the lowercased requirement. -/
def scoreFor (req taskType : String) : Nat :=
  match taskPatterns.find? (fun p => p.fst == taskType) with
  | some p => scoreOf req p.snd
  | none => 0

/-- The task-type names, in the order of the source literal. -/
def taskTypeNames : List String :=
  taskPatterns.map Prod.fst

/-- The key set of the Go map `primaryScore`: the task types whose
total pattern count against `req` is positive.  Go materialises this
as a hash map, so its iteration order is an arbitrary permutation of
this list. -/
def primaryKeysOf (req : String) : List String :=
  taskTypeNames.filter (fun t => decide (0 < scoreFor req t))

/-- The key set of the Go map `secondaryScore`: positive-score task
types other than the chosen primary type. -/
def secondaryKeysOf (req primary : String) : List String :=
  (primaryKeysOf req).filter (fun t => t != primary)

/-- The selection loop `for taskType, score := range m { if score >
highestScore { ... } }`, folded over one concrete iteration order
with the given initial winner. -/
def selectMax (score : String → Nat) (init : String) (order : List String) : String :=
  (order.foldl (fun (p : Nat × String) t => if p.fst < score t then (score t, t) else p)
    (0, init)).snd

/-- The `featurePatterns` literal: each regular expression is an
alternation of plain literals, so `MatchString` holds exactly when
one alternative occurs as a substring. -/
def featurePatterns : List (String × List String) :=
  [("SQL", ["sql", "query", "select", "from", "where", "group by"]),
   ("Charts", ["chart", "graph", "plot", "visualize", "pie", "bar", "line"]),
   ("Formatting", ["format", "style", "color", "conditional", "highlight"]),
   ("ImportExport", ["import", "export", "csv", "text file", "external"]),
   ("Calculations", ["calculate", "sum", "average", "count", "formula"]),
   ("AdvancedUI", ["userform", "complex form", "multi-step", "wizard"]),
   ("ErrorHandling", ["error handling", "validation", "try catch", "on error"])]

/-- The feature names, in the order of the source literal.  Go ranges
over the `featurePatterns` map, so the order actually used is an
arbitrary permutation of this list. -/
def featureNames : List String :=
  featurePatterns.map Prod.fst

/-- Does the feature's pattern match the lowercased requirement? -/
def featureMatches (req feature : String) : Bool :=
  match featurePatterns.find? (fun p => p.fst == feature) with
  | some p => p.snd.any (fun alt => goContains req alt)
  | none => false

/-- The `technicalTerms` literal of `extractKeywords`, in source
order. -/
def technicalTerms : List String :=
  ["filter", "sort", "report", "chart", "data", "column", "row", "cell",
   "sheet", "workbook", "range", "formula", "function", "macro", "calculate",
   "format", "conditional", "pivot", "table", "validation", "userform",
   "button", "combobox", "textbox", "query", "sql", "export", "import",
   "sum", "average", "count", "unique", "duplicate", "error", "loop"]

/-- The deduplication pass of `extractKeywords`: keep the first
occurrence of each keyword, tracking the set already seen. -/
def dedupAux (seen : List String) : List String → List String
  | [] => []
  | kw :: rest =>
    if kw ∈ seen then dedupAux seen rest
    else kw :: dedupAux (kw :: seen) rest

/-- `extractKeywords(requirement)`: the technical terms contained in
the lowercased requirement, deduplicated, truncated to 10. -/
def extractKeywords (requirement : String) : List String :=
  let lowerReq := toLowerStr requirement
  let keywords := technicalTerms.filter (fun term => goContains lowerReq term)
  let uniqueKeywords := dedupAux [] keywords
  if 10 < uniqueKeywords.length then uniqueKeywords.take 10 else uniqueKeywords

/-- `TaskClassification` as returned by `classifyUserRequirement`. -/
structure TaskClassification where
  PrimaryType : String
  SecondaryType : String
  Features : List String
  Complexity : String
  Keywords : List String
deriving DecidableEq, Repr

/-- The complexity score accumulated by `classifyUserRequirement`:
feature count bucket, a point for a secondary type, a point for
sophistication words in the lowercased requirement `req`, a point for
a raw requirement longer than 200 characters. -/
def complexityScore (requirement req secondary : String)
    (features : List String) : Nat :=
  (if 3 ≤ features.length then 2 else if 1 ≤ features.length then 1 else 0) +
  (if secondary != "" then 1 else 0) +
  (if goContains req "complex" || goContains req "advanced" ||
      goContains req "sophisticated" then 1 else 0) +
  (if 200 < requirement.data.length then 1 else 0)

/-- The complexity bucket chosen from the score. -/
def complexityOf (n : Nat) : String :=
  if 3 ≤ n then "Complex" else if 1 ≤ n then "Moderate" else "Simple"

/-- `classifyUserRequirement(requirement, structure)`.  The three
order parameters record the iteration orders of the Go map ranges the
function performs: `porder` over `primaryScore` when picking the
primary type, `sorder` over `secondaryScore` when picking the
secondary type, and `forder` over `featurePatterns` when collecting
features.  A real execution uses some permutation of the respective
key sets for each; everything else is deterministic.  The `structure`
argument is accepted and never read, as in the source. -/
def classifyUserRequirement (requirement : String) (_s : DataRange)
    (porder sorder forder : List String) : TaskClassification :=
  let req := toLowerStr requirement
  let keywords := extractKeywords req
  let primary := selectMax (scoreFor req) "Generic" porder
  let secondary := selectMax (scoreFor req) "" sorder
  let features := forder.filter (fun f => featureMatches req f)
  { PrimaryType := primary
    SecondaryType := secondary
    Features := features
    Complexity := complexityOf (complexityScore requirement req secondary features)
    Keywords := keywords }

/-! ## Two concurrent analysis requests

`App.AnalyzeExcelFile` takes no lock and keeps no in-flight record:
on a cache miss each goroutine calls the analyzer itself.  The model
below interleaves two requests for the same cache key at the
granularity of their three externally visible actions — cache read,
analyzer call, cache write — driven by an arbitrary schedule.  The
analyzer is deterministic here (both requests would compute the same
analysis `a`), and neither request suffers an injected cache fault. -/

/-- Where a request stands: before its cache read, after a miss and
before its analyzer call, after the analyzer call and before its
cache write, or done. -/
inductive ReqPhase
  | start
  | needCompute
  | needSave
  | finished
deriving DecidableEq, Repr

/-- One request's local state: its phase, the analysis it will
return once finished, and whether it has called the analyzer. -/
structure ReqState (α : Type) where
  phase : ReqPhase
  result : Option α
  computed : Bool
deriving DecidableEq, Repr

/-- A request that has not run yet. -/
def initReq {α : Type} : ReqState α :=
  ⟨ReqPhase.start, none, false⟩

/-- The shared world of the two requests: the cache store, the
analyzer-call counter (the ingestion counter of the spec), and the
two request states. -/
structure SysState (α : Type) where
  store : Store α
  count : Nat
  req0 : ReqState α
  req1 : ReqState α
deriving DecidableEq, Repr

/-- One atomic action of a single request, following the code: a
cache read finishes the request on a hit and otherwise sends it to
the analyzer; the analyzer call bumps the shared counter; the cache
write stores the analysis and finishes the request. -/
def reqStep {α : Type} (key : String) (a : α) (r : ReqState α)
    (store : Store α) (count : Nat) : ReqState α × Store α × Nat :=
  match r.phase with
  | ReqPhase.start =>
    match storeLookup store key with
    | some v => (⟨ReqPhase.finished, some v, r.computed⟩, store, count)
    | none => (⟨ReqPhase.needCompute, r.result, r.computed⟩, store, count)
  | ReqPhase.needCompute =>
    (⟨ReqPhase.needSave, r.result, true⟩, store, count + 1)
  | ReqPhase.needSave =>
    (⟨ReqPhase.finished, some a, r.computed⟩, storeInsert store key a, count)
  | ReqPhase.finished => (r, store, count)

/-- Let the scheduled request (`false` for request 0, `true` for
request 1) take its next atomic action. -/
def sysStep {α : Type} (key : String) (a : α) (sys : SysState α) (i : Bool) :
    SysState α :=
  if i then
    let s := reqStep key a sys.req1 sys.store sys.count
    ⟨s.snd.fst, s.snd.snd, sys.req0, s.fst⟩
  else
    let s := reqStep key a sys.req0 sys.store sys.count
    ⟨s.snd.fst, s.snd.snd, s.fst, sys.req1⟩

/-- Run a schedule from an empty cache with both requests pending. -/
def runSched {α : Type} (key : String) (a : α) (sched : List Bool) : SysState α :=
  sched.foldl (sysStep key a) ⟨[], 0, initReq, initReq⟩

/-- Invariant of the two-request system: the analyzer-call counter
counts exactly the requests that have computed, the store holds at
most the analysis `a` under the key, and any result a request
carries — in particular any finished request's result — is `a`. -/
def SysInv {α : Type} (key : String) (a : α) (sys : SysState α) : Prop :=
  sys.count = (cond sys.req0.computed 1 0) + (cond sys.req1.computed 1 0) ∧
  (storeLookup sys.store key = none ∨ storeLookup sys.store key = some a) ∧
  (sys.req0.result = none ∨ sys.req0.result = some a) ∧
  (sys.req1.result = none ∨ sys.req1.result = some a) ∧
  (sys.req0.phase = ReqPhase.finished → sys.req0.result = some a) ∧
  (sys.req1.phase = ReqPhase.finished → sys.req1.result = some a) ∧
  (sys.req0.phase = ReqPhase.start ∨ sys.req0.phase = ReqPhase.needCompute →
    sys.req0.computed = false) ∧
  (sys.req1.phase = ReqPhase.start ∨ sys.req1.phase = ReqPhase.needCompute →
    sys.req1.computed = false)

/-! ## Shared lemmas about the cache orchestration -/

/-- Reading a key immediately after writing it yields the written
analysis. -/
theorem storeLookup_insert_self {α : Type} (s : Store α) (k : String) (a : α) :
    storeLookup (storeInsert s k a) k = some a := by
  simp [storeLookup, storeInsert, List.find?]

/-- Evaluation of `AnalyzeExcelFile` on a fault-free cache hit. -/
theorem AnalyzeExcelFile_hit {α : Type} (h : String → Nat) (cfg : AppConfig)
    (filePath : String) (store : Store α) (a : α)
    (compute : AnalysisOptions → Except String α)
    (hc : cfg.System.CacheEnabled = true)
    (hhit : storeLookup store (cacheKey h cfg.System.CacheDir filePath) = some a) :
    AnalyzeExcelFile h cfg filePath store false false compute =
      ⟨Except.ok a, store, false⟩ := by
  simp [AnalyzeExcelFile, hc, hhit]

/-- Evaluation of `AnalyzeExcelFile` on a fault-free cache miss whose
computation succeeds. -/
theorem AnalyzeExcelFile_miss_ok {α : Type} (h : String → Nat) (cfg : AppConfig)
    (filePath : String) (store : Store α) (a : α)
    (compute : AnalysisOptions → Except String α)
    (hc : cfg.System.CacheEnabled = true)
    (hmiss : storeLookup store (cacheKey h cfg.System.CacheDir filePath) = none)
    (hcomp : compute (optionsOf cfg) = Except.ok a) :
    AnalyzeExcelFile h cfg filePath store false false compute =
      ⟨Except.ok a, storeInsert store (cacheKey h cfg.System.CacheDir filePath) a, true⟩ := by
  simp [AnalyzeExcelFile, hc, hmiss, hcomp]

/-! ## C1 — the cache key and the limit configuration -/

/-- C1 counterexample: two requests for the same path that differ
only in `MaxRows` (1000 vs 2000) use the same cache key, and the
second request is served the analysis cached under the first
configuration (1000) although its own computation would produce 2000
— the claim that limit settings yield distinct cache keys is false. -/
theorem cacheKey_limit_collision_counterexample :
    (⟨⟨10, 1000, 5, true⟩, ⟨true, "cache"⟩⟩ : AppConfig).Excel.MaxRows ≠
      (⟨⟨10, 2000, 5, true⟩, ⟨true, "cache"⟩⟩ : AppConfig).Excel.MaxRows ∧
    cacheKey (fun s => s.length)
        (⟨⟨10, 1000, 5, true⟩, ⟨true, "cache"⟩⟩ : AppConfig).System.CacheDir "book.xlsx" =
      cacheKey (fun s => s.length)
        (⟨⟨10, 2000, 5, true⟩, ⟨true, "cache"⟩⟩ : AppConfig).System.CacheDir "book.xlsx" ∧
    (AnalyzeExcelFile (fun s => s.length) ⟨⟨10, 2000, 5, true⟩, ⟨true, "cache"⟩⟩ "book.xlsx"
        (AnalyzeExcelFile (fun s => s.length) ⟨⟨10, 1000, 5, true⟩, ⟨true, "cache"⟩⟩
          "book.xlsx" [] false false (fun o => Except.ok o.MaxRows)).store
        false false (fun o => Except.ok o.MaxRows)).result = Except.ok 1000 ∧
    (fun (o : AnalysisOptions) => Except.ok (ε := String) o.MaxRows)
        (optionsOf ⟨⟨10, 2000, 5, true⟩, ⟨true, "cache"⟩⟩) = Except.ok 2000 := by
  refine ⟨by decide, rfl, ?_, rfl⟩
  rfl

/-- C1 (amended): the cache key is derived from the file path and the
cache directory alone and does not include the limit configuration:
two configurations sharing the System section produce the same key
whatever their limits are, and a request under the second
configuration is served an analysis cached under the first. -/
theorem cacheKey_ignores_limit_configuration {α : Type} (h : String → Nat)
    (cfg1 cfg2 : AppConfig) (filePath : String) (store : Store α) (a : α)
    (compute : AnalysisOptions → Except String α)
    (hsys : cfg1.System = cfg2.System)
    (hc : cfg2.System.CacheEnabled = true)
    (hhit : storeLookup store (cacheKey h cfg1.System.CacheDir filePath) = some a) :
    cacheKey h cfg1.System.CacheDir filePath = cacheKey h cfg2.System.CacheDir filePath ∧
    (AnalyzeExcelFile h cfg2 filePath store false false compute).result = Except.ok a ∧
    (AnalyzeExcelFile h cfg2 filePath store false false compute).computeInvoked = false := by
  have hkey : cacheKey h cfg1.System.CacheDir filePath =
      cacheKey h cfg2.System.CacheDir filePath := by rw [hsys]
  have hres := AnalyzeExcelFile_hit h cfg2 filePath store a compute hc (hkey ▸ hhit)
  exact ⟨hkey, by rw [hres], by rw [hres]⟩

/-- C1 witness: the amended theorem applied to the two concrete
configurations of the counterexample. -/
theorem cacheKey_ignores_limit_configuration_witness :
    (AnalyzeExcelFile (fun s => s.length) ⟨⟨10, 2000, 5, true⟩, ⟨true, "cache"⟩⟩ "book.xlsx"
        [(cacheKey (fun s => s.length) "cache" "book.xlsx", (1000 : Int))]
        false false (fun o => Except.ok o.MaxRows)).result = Except.ok 1000 :=
  (cacheKey_ignores_limit_configuration (fun s => s.length)
    ⟨⟨10, 1000, 5, true⟩, ⟨true, "cache"⟩⟩ ⟨⟨10, 2000, 5, true⟩, ⟨true, "cache"⟩⟩
    "book.xlsx" [(cacheKey (fun s => s.length) "cache" "book.xlsx", (1000 : Int))]
    1000 (fun o => Except.ok o.MaxRows) rfl rfl (by rfl)).2.1

/-! ## C2 — path-derived fingerprint and stale reads -/

/-- C2: the fingerprint is derived from the path, not the content.
`compute1` and `compute2` stand for the analyzer run against the
file's content at the time of each request; they are unrelated, yet
the second request reuses the first request's cache entry: it returns
the analysis computed from the earlier content and never invokes the
analyzer on the new content. -/
theorem path_keyed_cache_returns_stale_analysis {α : Type} (h : String → Nat)
    (cfg : AppConfig) (filePath : String) (store : Store α) (a1 : α)
    (compute1 compute2 : AnalysisOptions → Except String α)
    (hc : cfg.System.CacheEnabled = true)
    (hmiss : storeLookup store (cacheKey h cfg.System.CacheDir filePath) = none)
    (h1 : compute1 (optionsOf cfg) = Except.ok a1) :
    (AnalyzeExcelFile h cfg filePath store false false compute1).result = Except.ok a1 ∧
    (AnalyzeExcelFile h cfg filePath
        (AnalyzeExcelFile h cfg filePath store false false compute1).store
        false false compute2).result = Except.ok a1 ∧
    (AnalyzeExcelFile h cfg filePath
        (AnalyzeExcelFile h cfg filePath store false false compute1).store
        false false compute2).computeInvoked = false := by
  have h1run := AnalyzeExcelFile_miss_ok h cfg filePath store a1 compute1 hc hmiss h1
  have hhit2 : storeLookup (AnalyzeExcelFile h cfg filePath store false false compute1).store
      (cacheKey h cfg.System.CacheDir filePath) = some a1 := by
    rw [h1run]
    exact storeLookup_insert_self _ _ _
  have h2run := AnalyzeExcelFile_hit h cfg filePath _ a1 compute2 hc hhit2
  exact ⟨by rw [h1run], by rw [h2run], by rw [h2run]⟩

/-- C2 witness: the file's content changes between the requests (the
second computation would yield 99), yet the second request returns
the stale cached analysis 7. -/
theorem path_keyed_cache_returns_stale_analysis_witness :
    (AnalyzeExcelFile (fun s => s.length) ⟨⟨10, 1000, 5, true⟩, ⟨true, "cache"⟩⟩ "book.xlsx"
        (AnalyzeExcelFile (fun s => s.length) ⟨⟨10, 1000, 5, true⟩, ⟨true, "cache"⟩⟩
          "book.xlsx" [] false false (fun _ => Except.ok (7 : Int))).store
        false false (fun _ => Except.ok (99 : Int))).result = Except.ok 7 :=
  (path_keyed_cache_returns_stale_analysis (fun s => s.length)
    ⟨⟨10, 1000, 5, true⟩, ⟨true, "cache"⟩⟩ "book.xlsx" [] 7
    (fun _ => Except.ok 7) (fun _ => Except.ok 99) rfl rfl rfl).2.1

/-! ## C4 — cache failures are non-fatal -/

/-- C4: cache failures never fail the analysis.  A failing cache read
(`loadFault`) makes the call behave exactly as on a miss — the
analyzer runs and its successful result is returned; a failing cache
write (`saveFault`) never changes the returned result; and whenever
the call returns an error, that error is the wrapped analyzer error,
never a cache error. -/
theorem cache_failures_never_fail_analysis {α : Type} (h : String → Nat)
    (cfg : AppConfig) (filePath : String) (store store2 : Store α) (saveFault : Bool)
    (compute : AnalysisOptions → Except String α)
    (hc : cfg.System.CacheEnabled = true)
    (hmiss : storeLookup store2 (cacheKey h cfg.System.CacheDir filePath) = none) :
    (AnalyzeExcelFile h cfg filePath store true saveFault compute).result =
      (AnalyzeExcelFile h cfg filePath store2 false saveFault compute).result ∧
    (AnalyzeExcelFile h cfg filePath store true saveFault compute).computeInvoked = true ∧
    (∀ a, compute (optionsOf cfg) = Except.ok a →
      (AnalyzeExcelFile h cfg filePath store true saveFault compute).result = Except.ok a) ∧
    (∀ (loadFault : Bool) (st : Store α),
      (AnalyzeExcelFile h cfg filePath st loadFault true compute).result =
        (AnalyzeExcelFile h cfg filePath st loadFault false compute).result) ∧
    (∀ (loadFault saveFault2 : Bool) (st : Store α) (m : String),
      (AnalyzeExcelFile h cfg filePath st loadFault saveFault2 compute).result =
        Except.error m →
      ∃ e, compute (optionsOf cfg) = Except.error e ∧
        m = wrapError "EXCEL_ANALYSIS_FAILED" e) := by
  refine ⟨?_, ?_, ?_, ?_, ?_⟩
  · cases hcomp : compute (optionsOf cfg) <;>
      simp [AnalyzeExcelFile, hc, hmiss, hcomp]
  · cases hcomp : compute (optionsOf cfg) <;>
      simp [AnalyzeExcelFile, hc, hcomp]
  · intro a hcomp
    simp [AnalyzeExcelFile, hc, hcomp]
  · intro loadFault st
    cases loadFault <;>
      cases hlook : storeLookup st (cacheKey h cfg.System.CacheDir filePath) <;>
      cases hcomp : compute (optionsOf cfg) <;>
      simp [AnalyzeExcelFile, hc, hlook, hcomp]
  · intro loadFault saveFault2 st m hres
    by_cases hcomp : ∃ e, compute (optionsOf cfg) = Except.error e
    · obtain ⟨e, he⟩ := hcomp
      refine ⟨e, he, ?_⟩
      cases loadFault <;>
        cases hlook : storeLookup st (cacheKey h cfg.System.CacheDir filePath) <;>
        simp [AnalyzeExcelFile, hc, hlook, he] at hres <;> exact hres.symm
    · exfalso
      cases hcomp2 : compute (optionsOf cfg) with
      | ok a =>
        cases loadFault <;>
          cases hlook : storeLookup st (cacheKey h cfg.System.CacheDir filePath) <;>
          simp [AnalyzeExcelFile, hc, hlook, hcomp2] at hres
      | error e => exact hcomp ⟨e, hcomp2⟩

/-- C4 witness: with a failing read and a failing write around a
successful computation, the call still returns the computed
analysis. -/
theorem cache_failures_never_fail_analysis_witness :
    (AnalyzeExcelFile (fun s => s.length) ⟨⟨10, 1000, 5, true⟩, ⟨true, "cache"⟩⟩
        "book.xlsx" ([] : Store Int) true true (fun _ => Except.ok 7)).result =
      Except.ok 7 :=
  (cache_failures_never_fail_analysis (fun s => s.length)
    ⟨⟨10, 1000, 5, true⟩, ⟨true, "cache"⟩⟩ "book.xlsx" [] [] true
    (fun _ => Except.ok 7) rfl rfl).2.2.1 7 rfl

/-! ## C5 — a cache hit returns the cached analysis unchanged -/

/-- C5: when the cache read succeeds, the call returns exactly the
loaded analysis, leaves the store untouched and never invokes the
underlying analyzer. -/
theorem cache_hit_returns_loaded_analysis {α : Type} (h : String → Nat)
    (cfg : AppConfig) (filePath : String) (store : Store α) (a : α)
    (compute : AnalysisOptions → Except String α)
    (hc : cfg.System.CacheEnabled = true)
    (hhit : storeLookup store (cacheKey h cfg.System.CacheDir filePath) = some a) :
    AnalyzeExcelFile h cfg filePath store false false compute =
      ⟨Except.ok a, store, false⟩ :=
  AnalyzeExcelFile_hit h cfg filePath store a compute hc hhit

/-- C5 witness: a concrete hit returns the cached value 42 with the
analyzer left uninvoked. -/
theorem cache_hit_returns_loaded_analysis_witness :
    AnalyzeExcelFile (fun s => s.length) ⟨⟨10, 1000, 5, true⟩, ⟨true, "cache"⟩⟩
        "book.xlsx" [(cacheKey (fun s => s.length) "cache" "book.xlsx", (42 : Int))]
        false false (fun _ => Except.ok 0) =
      ⟨Except.ok 42, [(cacheKey (fun s => s.length) "cache" "book.xlsx", 42)], false⟩ :=
  cache_hit_returns_loaded_analysis (fun s => s.length)
    ⟨⟨10, 1000, 5, true⟩, ⟨true, "cache"⟩⟩ "book.xlsx"
    [(cacheKey (fun s => s.length) "cache" "book.xlsx", 42)] 42
    (fun _ => Except.ok 0) rfl (by rfl)

/-! ## C6 — sample rows are a bounded prefix -/

/-- For a non-negative cap, `limitSampleData` never panics and is
exactly a prefix-take. -/
theorem limitSampleData_eq_take (sampleData : List (List String))
    (cap : Int) (hcap : 0 ≤ cap) :
    limitSampleData sampleData cap = some (sampleData.take cap.toNat) := by
  unfold limitSampleData
  split
  · next hle =>
    have hlen : sampleData.length ≤ cap.toNat := by omega
    rw [List.take_of_length_le hlen]
  · next hgt =>
    simp [hcap]

/-- C6: for every sample matrix and non-negative row cap,
`limitSampleData` returns the first `min(cap, rows)` rows in their
original order — the whole input when it fits, a prefix of exactly
`cap` rows otherwise — so the result never exceeds the cap nor the
actual row count. -/
theorem limitSampleData_bounded_first_rows (sampleData : List (List String))
    (cap : Int) (hcap : 0 ≤ cap) :
    limitSampleData sampleData cap = some (sampleData.take cap.toNat) ∧
    (sampleData.take cap.toNat).length = min cap.toNat sampleData.length ∧
    sampleData.take cap.toNat <+: sampleData := by
  refine ⟨limitSampleData_eq_take sampleData cap hcap, by simp, List.take_prefix _ _⟩

/-- C6 witness: a three-row sample capped at two rows yields exactly
its first two rows. -/
theorem limitSampleData_bounded_first_rows_witness :
    limitSampleData [["a"], ["b"], ["c"]] 2 = some [["a"], ["b"]] := by
  have h := (limitSampleData_bounded_first_rows [["a"], ["b"], ["c"]] 2 (by decide)).1
  simpa using h

/-! ## C7 — spreadsheet column letters -/

/-- Character codes produced by `Char.ofNat` below the surrogate
range read back unchanged. -/
theorem char_toNat_ofNat (n : Nat) (h : n < 55296) : (Char.ofNat n).toNat = n := by
  simp [Char.ofNat, Char.toNat, Nat.isValidChar, h, Char.ofNatAux]
  rfl

/-- The fuel of `colLetterAux` is irrelevant as long as it exceeds
the index (the loop runs far fewer times than that). -/
theorem colLetterAux_congr : ∀ (i f1 f2 : Nat), i < f1 → i < f2 →
    colLetterAux f1 i = colLetterAux f2 i := by
  intro i
  induction i using Nat.strong_induction_on with
  | _ i ih =>
    intro f1 f2 h1 h2
    match f1, f2 with
    | a + 1, b + 1 =>
      by_cases hlt : i < 26
      · simp only [colLetterAux, if_pos hlt]
      · have hdiv : i / 26 < i := Nat.div_lt_self (by omega) (by omega)
        have heq := ih (i / 26 - 1) (by omega) a b (by omega) (by omega)
        simp only [colLetterAux, if_neg hlt, heq]

/-- A single final loop iteration: indices below 26 give one
letter. -/
theorem columnLetterFromIndex_base {i : Nat} (h : i < 26) :
    columnLetterFromIndex i = String.singleton (Char.ofNat (65 + i)) := by
  simp only [columnLetterFromIndex, colLetterAux, if_pos h]

/-- One loop iteration for indices of at least 26: the letters of
`i/26 - 1` followed by the letter of `i % 26`. -/
theorem columnLetterFromIndex_step {i : Nat} (h : 26 ≤ i) :
    columnLetterFromIndex i =
      columnLetterFromIndex (i / 26 - 1) ++
        String.singleton (Char.ofNat (65 + i % 26)) := by
  have hdiv : i / 26 < i := Nat.div_lt_self (by omega) (by omega)
  have h1 : columnLetterFromIndex i =
      colLetterAux i (i / 26 - 1) ++ String.singleton (Char.ofNat (65 + i % 26)) := by
    show (if i < 26 then String.singleton (Char.ofNat (65 + i))
        else colLetterAux i (i / 26 - 1) ++ String.singleton (Char.ofNat (65 + i % 26))) = _
    rw [if_neg (by omega : ¬i < 26)]
  rw [h1, colLetterAux_congr (i / 26 - 1) i (i / 26 - 1 + 1) (by omega) (by omega)]
  rfl

/-- Appending one letter multiplies the bijective base-26 value by 26
and adds the letter's digit. -/
theorem colVal_append_singleton (s : String) (c : Char) :
    colVal (s ++ String.singleton c) = 26 * colVal s + (c.toNat - 64) := by
  simp [colVal, String.data_append, String.singleton, List.foldl_append]

/-- C7: `columnLetterFromIndex` maps the 0-based index `i` to the
`i`-th Excel column name: the produced string consists of uppercase
letters only and its bijective base-26 value is `i + 1` (which
determines the name uniquely, so `0 ↦ A`, ..., `25 ↦ Z`, `26 ↦ AA`,
`27 ↦ AB`, ...); `generateColumnLetters n` lists the first `n` such
labels in order. -/
theorem columnLetterFromIndex_bijective_base26 :
    (∀ i : Nat, colVal (columnLetterFromIndex i) = i + 1 ∧
      (columnLetterFromIndex i).data.all (fun c => 65 ≤ c.toNat && c.toNat ≤ 90) = true) ∧
    (∀ n k : Nat, (generateColumnLetters n)[k]? =
      if k < n then some (columnLetterFromIndex k) else none) ∧
    columnLetterFromIndex 0 = "A" ∧ columnLetterFromIndex 1 = "B" ∧
    columnLetterFromIndex 25 = "Z" ∧ columnLetterFromIndex 26 = "AA" ∧
    columnLetterFromIndex 27 = "AB" ∧ columnLetterFromIndex 701 = "ZZ" ∧
    columnLetterFromIndex 702 = "AAA" := by
  refine ⟨?_, ?_, by decide, by decide, by decide, by decide, by decide, by decide, by decide⟩
  · intro i
    induction i using Nat.strong_induction_on with
    | _ i ih =>
      by_cases hlt : i < 26
      · refine ⟨?_, ?_⟩
        · rw [columnLetterFromIndex_base hlt]
          have hc : (Char.ofNat (65 + i)).toNat = 65 + i := char_toNat_ofNat _ (by omega)
          simp [colVal, String.singleton, hc]
          omega
        · rw [columnLetterFromIndex_base hlt]
          have hc : (Char.ofNat (65 + i)).toNat = 65 + i := char_toNat_ofNat _ (by omega)
          simp [String.singleton, hc]
          omega
      · have hdiv : i / 26 < i := Nat.div_lt_self (by omega) (by omega)
        have hrec := ih (i / 26 - 1) (by omega)
        have hc : (Char.ofNat (65 + i % 26)).toNat = 65 + i % 26 :=
          char_toNat_ofNat _ (by omega)
        have h1 : 1 ≤ i / 26 := (Nat.one_le_div_iff (by omega)).2 (by omega)
        have hmod := Nat.div_add_mod i 26
        refine ⟨?_, ?_⟩
        · rw [columnLetterFromIndex_step (by omega), colVal_append_singleton, hrec.1, hc]
          omega
        · rw [columnLetterFromIndex_step (by omega)]
          have hr2 := hrec.2
          simp [String.data_append, String.singleton, List.all_append, hc] at hr2 ⊢
          exact ⟨hr2, by omega⟩
  · intro n k
    by_cases hk : k < n
    · simp [generateColumnLetters, List.getElem?_map, List.getElem?_range, hk]
    · simp only [generateColumnLetters, if_neg hk]
      rw [List.getElem?_eq_none]
      simp
      omega

/-! ## C8 — totality of prompt generation and the fallback prompt -/

/-- The fallback prompt carries the sheet name, the range address,
the joined header names and the user requirement as substrings. -/
theorem fallbackPrompt_contains (s : DataRange) (u : String)
    (cfg : PromptConfig) (e : String) :
    s.SheetName.data <:+: (fallbackPrompt s u cfg e).data ∧
    s.RangeAddress.data <:+: (fallbackPrompt s u cfg e).data ∧
    (String.intercalate ", " s.Headers).data <:+: (fallbackPrompt s u cfg e).data ∧
    u.data <:+: (fallbackPrompt s u cfg e).data := by
  refine ⟨?_, ?_, ?_, ?_⟩ <;> simp only [fallbackPrompt, String.data_append]
  · refine ⟨"# TASK: Generate Excel VBA script based on user requirements\n\n".data ++
      "ERROR: Template processing failed: ".data ++ e.data ++
      ". Using fallback prompt.\n\n".data ++ "## EXCEL STRUCTURE\n".data ++
      "- Sheet: ".data,
      "\n".data ++ "- Range: ".data ++ s.RangeAddress.data ++ "\n".data ++
      "- Headers: ".data ++ (String.intercalate ", " s.Headers).data ++ "\n".data ++
      "- Data Rows: ".data ++ (toString s.DataRows).data ++ "\n\n".data ++
      "## USER REQUIREMENT\n".data ++ u.data ++ "\n\n".data ++
      "## OUTPUT INSTRUCTIONS\n".data ++
      "Generate VBA code that fulfills the user requirement.\n".data, ?_⟩
    simp only [List.append_assoc]
  · refine ⟨"# TASK: Generate Excel VBA script based on user requirements\n\n".data ++
      "ERROR: Template processing failed: ".data ++ e.data ++
      ". Using fallback prompt.\n\n".data ++ "## EXCEL STRUCTURE\n".data ++
      "- Sheet: ".data ++ s.SheetName.data ++ "\n".data ++ "- Range: ".data,
      "\n".data ++ "- Headers: ".data ++ (String.intercalate ", " s.Headers).data ++
      "\n".data ++ "- Data Rows: ".data ++ (toString s.DataRows).data ++ "\n\n".data ++
      "## USER REQUIREMENT\n".data ++ u.data ++ "\n\n".data ++
      "## OUTPUT INSTRUCTIONS\n".data ++
      "Generate VBA code that fulfills the user requirement.\n".data, ?_⟩
    simp only [List.append_assoc]
  · refine ⟨"# TASK: Generate Excel VBA script based on user requirements\n\n".data ++
      "ERROR: Template processing failed: ".data ++ e.data ++
      ". Using fallback prompt.\n\n".data ++ "## EXCEL STRUCTURE\n".data ++
      "- Sheet: ".data ++ s.SheetName.data ++ "\n".data ++ "- Range: ".data ++
      s.RangeAddress.data ++ "\n".data ++ "- Headers: ".data,
      "\n".data ++ "- Data Rows: ".data ++ (toString s.DataRows).data ++ "\n\n".data ++
      "## USER REQUIREMENT\n".data ++ u.data ++ "\n\n".data ++
      "## OUTPUT INSTRUCTIONS\n".data ++
      "Generate VBA code that fulfills the user requirement.\n".data, ?_⟩
    simp only [List.append_assoc]
  · refine ⟨"# TASK: Generate Excel VBA script based on user requirements\n\n".data ++
      "ERROR: Template processing failed: ".data ++ e.data ++
      ". Using fallback prompt.\n\n".data ++ "## EXCEL STRUCTURE\n".data ++
      "- Sheet: ".data ++ s.SheetName.data ++ "\n".data ++ "- Range: ".data ++
      s.RangeAddress.data ++ "\n".data ++ "- Headers: ".data ++
      (String.intercalate ", " s.Headers).data ++ "\n".data ++
      "- Data Rows: ".data ++ (toString s.DataRows).data ++ "\n\n".data ++
      "## USER REQUIREMENT\n".data,
      "\n\n".data ++ "## OUTPUT INSTRUCTIONS\n".data ++
      "Generate VBA code that fulfills the user requirement.\n".data, ?_⟩
    simp only [List.append_assoc]

/-- C8 counterexample: with `MaxSampleRows = -1` the Go slice
expression `sampleData[:maxRows]` inside the template-data
construction panics (rendered as `none`), so the function fails
rather than returning a prompt, even though the template would have
rendered successfully — the claim is false for this configuration. -/
theorem generatePrompt_negative_cap_counterexample :
    GenerateExaMCPPromptWithConfig
      ⟨"A1:B2", ["Name"], 1, [("Name", "Text")], [["x"]], "", true, "Sheet1", []⟩
      "sum the column"
      ⟨"en", true, false, -1, [], [], "Generic", "Intermediate", [], "Excel 2016+"⟩
      (Except.ok "rendered") = none := rfl

/-- C8 (amended): for every structure, user requirement and
configuration whose `MaxSampleRows` is non-negative, the function
returns a prompt string: the rendered template when template
processing succeeds, and otherwise the fallback prompt, which
contains the sheet name, the range address, the joined header names
and the user requirement. -/
theorem generatePrompt_total_with_fallback (s : DataRange) (u : String)
    (cfg : PromptConfig) (tmpl : Except String String)
    (hcap : 0 ≤ cfg.MaxSampleRows) :
    (∃ out, GenerateExaMCPPromptWithConfig s u cfg tmpl = some out) ∧
    (∀ rendered, tmpl = Except.ok rendered →
      GenerateExaMCPPromptWithConfig s u cfg tmpl = some rendered) ∧
    (∀ e, tmpl = Except.error e →
      GenerateExaMCPPromptWithConfig s u cfg tmpl = some (fallbackPrompt s u cfg e) ∧
      s.SheetName.data <:+: (fallbackPrompt s u cfg e).data ∧
      s.RangeAddress.data <:+: (fallbackPrompt s u cfg e).data ∧
      (String.intercalate ", " s.Headers).data <:+: (fallbackPrompt s u cfg e).data ∧
      u.data <:+: (fallbackPrompt s u cfg e).data) := by
  have hls := limitSampleData_eq_take s.SampleData cfg.MaxSampleRows hcap
  refine ⟨?_, ?_, ?_⟩
  · cases tmpl with
    | ok rendered => exact ⟨rendered, by simp [GenerateExaMCPPromptWithConfig, hls]⟩
    | error e =>
      exact ⟨fallbackPrompt s u cfg e, by simp [GenerateExaMCPPromptWithConfig, hls]⟩
  · intro rendered hr
    simp [GenerateExaMCPPromptWithConfig, hls, hr]
  · intro e he
    refine ⟨by simp [GenerateExaMCPPromptWithConfig, hls, he], ?_, ?_, ?_, ?_⟩ <;>
      first
        | exact (fallbackPrompt_contains s u cfg e).1
        | exact (fallbackPrompt_contains s u cfg e).2.1
        | exact (fallbackPrompt_contains s u cfg e).2.2.1
        | exact (fallbackPrompt_contains s u cfg e).2.2.2

/-- C8 witness: with a sample cap of 3 and a failing template, the
concrete call returns the fallback prompt. -/
theorem generatePrompt_total_with_fallback_witness :
    GenerateExaMCPPromptWithConfig
      ⟨"A1:B2", ["Name"], 1, [("Name", "Text")], [["x"]], "", true, "Sheet1", []⟩
      "sum the column"
      ⟨"en", true, false, 3, [], [], "Generic", "Intermediate", [], "Excel 2016+"⟩
      (Except.error "boom") =
    some (fallbackPrompt
      ⟨"A1:B2", ["Name"], 1, [("Name", "Text")], [["x"]], "", true, "Sheet1", []⟩
      "sum the column"
      ⟨"en", true, false, 3, [], [], "Generic", "Intermediate", [], "Excel 2016+"⟩
      "boom") :=
  ((generatePrompt_total_with_fallback
    ⟨"A1:B2", ["Name"], 1, [("Name", "Text")], [["x"]], "", true, "Sheet1", []⟩
    "sum the column"
    ⟨"en", true, false, 3, [], [], "Generic", "Intermediate", [], "Excel 2016+"⟩
    (Except.error "boom") (by decide)).2.2 "boom" rfl).1

/-! ## C10 — keyword extraction is bounded and faithful -/

/-- Everything the deduplication pass keeps comes from its input. -/
theorem mem_dedupAux : ∀ (l seen : List String) (x : String),
    x ∈ dedupAux seen l → x ∈ l := by
  intro l
  induction l with
  | nil => intro seen x hx; simp [dedupAux] at hx
  | cons kw rest ih =>
    intro seen x hx
    by_cases hkw : kw ∈ seen
    · simp only [dedupAux, if_pos hkw] at hx
      exact List.mem_cons_of_mem _ (ih seen x hx)
    · simp only [dedupAux, if_neg hkw] at hx
      rcases List.mem_cons.1 hx with h | h
      · exact h ▸ List.mem_cons_self _ _
      · exact List.mem_cons_of_mem _ (ih (kw :: seen) x h)

/-- Nothing the deduplication pass keeps was already seen. -/
theorem not_mem_seen_of_mem_dedupAux : ∀ (l seen : List String) (x : String),
    x ∈ dedupAux seen l → x ∉ seen := by
  intro l
  induction l with
  | nil => intro seen x hx; simp [dedupAux] at hx
  | cons kw rest ih =>
    intro seen x hx
    by_cases hkw : kw ∈ seen
    · simp only [dedupAux, if_pos hkw] at hx
      exact ih seen x hx
    · simp only [dedupAux, if_neg hkw] at hx
      rcases List.mem_cons.1 hx with h | h
      · exact h ▸ hkw
      · intro hs
        exact ih (kw :: seen) x h (List.mem_cons_of_mem _ hs)

/-- The deduplication pass produces a duplicate-free list. -/
theorem dedupAux_nodup : ∀ (l seen : List String), (dedupAux seen l).Nodup := by
  intro l
  induction l with
  | nil => intro seen; simp [dedupAux]
  | cons kw rest ih =>
    intro seen
    by_cases hkw : kw ∈ seen
    · simp only [dedupAux, if_pos hkw]
      exact ih seen
    · simp only [dedupAux, if_neg hkw]
      refine List.nodup_cons.2 ⟨?_, ih (kw :: seen)⟩
      intro hmem
      exact not_mem_seen_of_mem_dedupAux rest (kw :: seen) kw hmem
        (List.mem_cons_self _ _)

/-- C10: `extractKeywords` returns at most 10 keywords, without
duplicates, and every returned keyword occurs as a substring of the
lowercased input requirement (`goContains` is the embedded
`strings.Contains`). -/
theorem extractKeywords_bounded_faithful (requirement : String) :
    (extractKeywords requirement).length ≤ 10 ∧
    (extractKeywords requirement).Nodup ∧
    (extractKeywords requirement).all
      (fun kw => goContains (toLowerStr requirement) kw) = true := by
  unfold extractKeywords
  have hsub : ∀ x ∈ dedupAux []
      (technicalTerms.filter (fun term => goContains (toLowerStr requirement) term)),
      goContains (toLowerStr requirement) x = true := by
    intro x hx
    have hx2 := mem_dedupAux _ _ _ hx
    exact (List.mem_filter.1 hx2).2
  by_cases h10 : 10 < (dedupAux []
      (technicalTerms.filter (fun term => goContains (toLowerStr requirement) term))).length
  · simp only [if_pos h10]
    refine ⟨by simp, ?_, ?_⟩
    · exact (List.take_sublist _ _).nodup (dedupAux_nodup _ _)
    · rw [List.all_eq_true]
      intro x hx
      exact hsub x (List.mem_of_mem_take hx)
  · simp only [if_neg h10]
    refine ⟨by omega, dedupAux_nodup _ _, ?_⟩
    rw [List.all_eq_true]
    intro x hx
    exact hsub x hx

/-! ## C9 — task classification under Go map iteration orders -/

/-- The selection fold never moves once no remaining score exceeds
the accumulator. -/
theorem selectMax_stays (score : String → Nat) :
    ∀ (order : List String) (acc : Nat × String),
    (∀ u ∈ order, score u ≤ acc.fst) →
    order.foldl (fun (p : Nat × String) u =>
      if p.fst < score u then (score u, u) else p) acc = acc := by
  intro order
  induction order with
  | nil => intro acc _; rfl
  | cons u rest ih =>
    intro acc h
    rw [List.foldl_cons, if_neg (by have := h u (List.mem_cons_self u rest); omega)]
    exact ih acc (fun v hv => h v (List.mem_cons_of_mem _ hv))

/-- Any property shared by the accumulator's current winner and all
scheduled keys survives the selection fold. -/
theorem selectMax_fold_pred (score : String → Nat) (P : String → Prop) :
    ∀ (order : List String) (acc : Nat × String),
    P acc.snd → (∀ u ∈ order, P u) →
    P ((order.foldl (fun (p : Nat × String) u =>
      if p.fst < score u then (score u, u) else p) acc).snd) := by
  intro order
  induction order with
  | nil => intro acc hacc _; exact hacc
  | cons u rest ih =>
    intro acc hacc h
    rw [List.foldl_cons]
    by_cases hc : acc.fst < score u
    · rw [if_pos hc]
      exact ih (score u, u) (h u (List.mem_cons_self u rest))
        (fun v hv => h v (List.mem_cons_of_mem _ hv))
    · rw [if_neg hc]
      exact ih acc hacc (fun v hv => h v (List.mem_cons_of_mem _ hv))

/-- When one key's score strictly beats every other scheduled key and
the accumulator, the fold selects that key, whatever the iteration
order was. -/
theorem selectMax_fold_unique (score : String → Nat) (t : String) :
    ∀ (order : List String) (acc : Nat × String), t ∈ order → order.Nodup →
    (∀ u ∈ order, u ≠ t → score u < score t) → acc.fst < score t →
    (order.foldl (fun (p : Nat × String) u =>
      if p.fst < score u then (score u, u) else p) acc).snd = t := by
  intro order
  induction order with
  | nil => intro acc hmem; cases hmem
  | cons u rest ih =>
    intro acc hmem hnd hmax hacc
    rw [List.foldl_cons]
    by_cases hut : u = t
    · subst hut
      rw [if_pos hacc]
      rw [selectMax_stays score rest (score u, u) ?_]
      intro v hv
      have hvne : v ≠ u := fun h => (List.nodup_cons.1 hnd).1 (h ▸ hv)
      exact le_of_lt (hmax v (List.mem_cons_of_mem _ hv) hvne)
    · have htmem : t ∈ rest := by
        rcases List.mem_cons.1 hmem with h | h
        · exact absurd h.symm hut
        · exact h
      have hu : score u < score t := hmax u (List.mem_cons_self u rest) hut
      have hrest : ∀ v ∈ rest, v ≠ t → score v < score t :=
        fun v hv hvt => hmax v (List.mem_cons_of_mem _ hv) hvt
      by_cases hc : acc.fst < score u
      · rw [if_pos hc]
        exact ih (score u, u) htmem (List.nodup_cons.1 hnd).2 hrest (by simpa using hu)
      · rw [if_neg hc]
        exact ih acc htmem (List.nodup_cons.1 hnd).2 hrest hacc

/-- With a non-empty order of positively scored keys, the selected
winner is one of the keys. -/
theorem selectMax_mem_of_pos (score : String → Nat) (order : List String)
    (init : String) (hne : order ≠ [])
    (hpos : ∀ u ∈ order, 0 < score u) :
    selectMax score init order ∈ order := by
  match order with
  | t :: rest =>
    unfold selectMax
    rw [List.foldl_cons, if_pos (by simpa using hpos t (List.mem_cons_self t rest))]
    exact selectMax_fold_pred score (· ∈ t :: rest) rest (score t, t)
      (List.mem_cons_self t rest) (fun u hu => List.mem_cons_of_mem _ hu)

/-- With the empty initial winner, the fold returns the empty string
exactly when there are no keys (given keys are positively scored and
non-empty strings). -/
theorem selectMax_empty_iff (score : String → Nat) (order : List String)
    (hpos : ∀ u ∈ order, 0 < score u) (hne : ∀ u ∈ order, u ≠ "") :
    (selectMax score "" order = "") ↔ order = [] := by
  constructor
  · intro hsel
    by_contra hcon
    match order, hcon with
    | t :: rest, _ =>
      revert hsel
      unfold selectMax
      rw [List.foldl_cons, if_pos (by simpa using hpos t (List.mem_cons_self t rest))]
      intro hsel
      exact hne _ (selectMax_fold_pred score (· ∈ t :: rest) rest (score t, t)
        (List.mem_cons_self t rest) (fun u hu => List.mem_cons_of_mem _ hu)) hsel
  · intro h
    subst h
    rfl

/-- Erasing a member from a duplicate-free list by filtering leaves
nothing exactly when the list was just that member. -/
theorem filter_bne_eq_nil_iff (K : List String) (p : String)
    (hnd : K.Nodup) (hpm : p ∈ K) :
    (K.filter (fun u => u != p) = []) ↔ K = [p] := by
  constructor
  · intro hemp
    have hall : ∀ u ∈ K, u = p := by
      intro u hu
      have := List.filter_eq_nil_iff.1 hemp u hu
      simpa using this
    match K, hpm with
    | u :: rest, _ =>
      have hup : u = p := hall u (List.mem_cons_self u rest)
      subst hup
      have hrest : rest = [] := by
        rw [List.eq_nil_iff_forall_not_mem]
        intro v hv
        have hvp : v = u := hall v (List.mem_cons_of_mem _ hv)
        exact (List.nodup_cons.1 hnd).1 (hvp ▸ hv)
      rw [hrest]
  · intro h
    subst h
    simp

/-- The `!= ""` test agrees on two strings that are empty
together. -/
theorem bne_empty_congr {a b : String} (h : (a = "") ↔ (b = "")) :
    (a != "") = (b != "") := by
  have hbeq : (a == "") = (b == "") := by
    by_cases ha : a = ""
    · have hb := h.1 ha
      simp [ha, hb]
    · have hb : ¬b = "" := fun hb => ha (h.2 hb)
      cases hab : a == "" with
      | true => exact absurd (eq_of_beq hab) ha
      | false =>
        cases hbb : b == "" with
        | true => exact absurd (eq_of_beq hbb) hb
        | false => rfl
  simp only [bne, hbeq]

/-- The classifier's primary pick is the selection fold over the
primary iteration order. -/
theorem classify_PrimaryType (requirement : String) (sDR : DataRange)
    (porder sorder forder : List String) :
    (classifyUserRequirement requirement sDR porder sorder forder).PrimaryType =
      selectMax (scoreFor (toLowerStr requirement)) "Generic" porder := rfl

/-- The classifier's secondary pick is the selection fold over the
secondary iteration order. -/
theorem classify_SecondaryType (requirement : String) (sDR : DataRange)
    (porder sorder forder : List String) :
    (classifyUserRequirement requirement sDR porder sorder forder).SecondaryType =
      selectMax (scoreFor (toLowerStr requirement)) "" sorder := rfl

/-- Core determinism analysis of the classifier's order-dependent
pieces, for an arbitrary lowercased requirement `req`: the collected
features are order-independent up to permutation, emptiness of the
secondary pick is order-independent, the complexity is
order-independent, and a strictly maximal positive score forces the
primary pick. -/
theorem classify_core (requirement req : String)
    (porder1 porder2 sorder1 sorder2 forder1 forder2 : List String)
    (hp1 : porder1.Perm (primaryKeysOf req))
    (hp2 : porder2.Perm (primaryKeysOf req))
    (hs1 : sorder1.Perm (secondaryKeysOf req
      (selectMax (scoreFor req) "Generic" porder1)))
    (hs2 : sorder2.Perm (secondaryKeysOf req
      (selectMax (scoreFor req) "Generic" porder2)))
    (hf1 : forder1.Perm featureNames)
    (hf2 : forder2.Perm featureNames) :
    (forder1.filter (fun f => featureMatches req f)).Perm
      (forder2.filter (fun f => featureMatches req f)) ∧
    ((selectMax (scoreFor req) "" sorder1 = "") ↔
      (selectMax (scoreFor req) "" sorder2 = "")) ∧
    complexityOf (complexityScore requirement req
        (selectMax (scoreFor req) "" sorder1)
        (forder1.filter (fun f => featureMatches req f))) =
      complexityOf (complexityScore requirement req
        (selectMax (scoreFor req) "" sorder2)
        (forder2.filter (fun f => featureMatches req f))) ∧
    (∀ t ∈ primaryKeysOf req,
      (∀ u ∈ primaryKeysOf req, u ≠ t → scoreFor req u < scoreFor req t) →
      selectMax (scoreFor req) "Generic" porder1 = t ∧
      selectMax (scoreFor req) "Generic" porder2 = t) := by
  have httnd : taskTypeNames.Nodup := by decide
  have httne : ∀ u ∈ taskTypeNames, u ≠ "" := by decide
  have hKnd : (primaryKeysOf req).Nodup := httnd.filter _
  have hKpos : ∀ u ∈ primaryKeysOf req, 0 < scoreFor req u := by
    intro u hu
    have h2 := (List.mem_filter.1 hu).2
    exact of_decide_eq_true h2
  have hKne : ∀ u ∈ primaryKeysOf req, u ≠ "" :=
    fun u hu => httne u (List.mem_filter.1 hu).1
  have hsub1 : ∀ u ∈ sorder1, u ∈ primaryKeysOf req :=
    fun u hu => (List.filter_sublist _).subset (hs1.subset hu)
  have hsub2 : ∀ u ∈ sorder2, u ∈ primaryKeysOf req :=
    fun u hu => (List.filter_sublist _).subset (hs2.subset hu)
  have hw1 : (selectMax (scoreFor req) "" sorder1 = "") ↔ sorder1 = [] :=
    selectMax_empty_iff _ _ (fun u hu => hKpos u (hsub1 u hu))
      (fun u hu => hKne u (hsub1 u hu))
  have hw2 : (selectMax (scoreFor req) "" sorder2 = "") ↔ sorder2 = [] :=
    selectMax_empty_iff _ _ (fun u hu => hKpos u (hsub2 u hu))
      (fun u hu => hKne u (hsub2 u hu))
  have hlen1 : sorder1 = [] ↔ secondaryKeysOf req
      (selectMax (scoreFor req) "Generic" porder1) = [] := by
    have hl := hs1.length_eq
    constructor
    · intro h
      apply List.length_eq_zero.1
      rw [← hl, h]
      rfl
    · intro h
      apply List.length_eq_zero.1
      rw [hl, h]
      rfl
  have hlen2 : sorder2 = [] ↔ secondaryKeysOf req
      (selectMax (scoreFor req) "Generic" porder2) = [] := by
    have hl := hs2.length_eq
    constructor
    · intro h
      apply List.length_eq_zero.1
      rw [← hl, h]
      rfl
    · intro h
      apply List.length_eq_zero.1
      rw [hl, h]
      rfl
  have hempiff : (secondaryKeysOf req
      (selectMax (scoreFor req) "Generic" porder1) = []) ↔
      (secondaryKeysOf req (selectMax (scoreFor req) "Generic" porder2) = []) := by
    by_cases hK : primaryKeysOf req = []
    · unfold secondaryKeysOf
      rw [hK]
      simp
    · have hone1 : porder1 ≠ [] := by
        intro h
        apply hK
        apply List.length_eq_zero.1
        rw [← hp1.length_eq, h]
        rfl
      have hone2 : porder2 ≠ [] := by
        intro h
        apply hK
        apply List.length_eq_zero.1
        rw [← hp2.length_eq, h]
        rfl
      have hp1mem : selectMax (scoreFor req) "Generic" porder1 ∈ primaryKeysOf req :=
        hp1.subset (selectMax_mem_of_pos _ _ _ hone1
          (fun u hu => hKpos u (hp1.subset hu)))
      have hp2mem : selectMax (scoreFor req) "Generic" porder2 ∈ primaryKeysOf req :=
        hp2.subset (selectMax_mem_of_pos _ _ _ hone2
          (fun u hu => hKpos u (hp2.subset hu)))
      have h1 := filter_bne_eq_nil_iff (primaryKeysOf req)
        (selectMax (scoreFor req) "Generic" porder1) hKnd hp1mem
      have h2 := filter_bne_eq_nil_iff (primaryKeysOf req)
        (selectMax (scoreFor req) "Generic" porder2) hKnd hp2mem
      constructor
      · intro h
        have hKp1 := h1.1 h
        have heq : selectMax (scoreFor req) "Generic" porder2 =
            selectMax (scoreFor req) "Generic" porder1 := by
          have := hp2mem
          rw [hKp1] at this
          simpa using this
        exact h2.2 (by rw [hKp1, heq])
      · intro h
        have hKp2 := h2.1 h
        have heq : selectMax (scoreFor req) "Generic" porder1 =
            selectMax (scoreFor req) "Generic" porder2 := by
          have := hp1mem
          rw [hKp2] at this
          simpa using this
        exact h1.2 (by rw [hKp2, heq])
  have hseciff : (selectMax (scoreFor req) "" sorder1 = "") ↔
      (selectMax (scoreFor req) "" sorder2 = "") :=
    hw1.trans (hlen1.trans (hempiff.trans (hlen2.symm.trans hw2.symm)))
  have hfperm : (forder1.filter (fun f => featureMatches req f)).Perm
      (forder2.filter (fun f => featureMatches req f)) :=
    (hf1.trans hf2.symm).filter _
  refine ⟨hfperm, hseciff, ?_, ?_⟩
  · have hfl : (forder1.filter (fun f => featureMatches req f)).length =
        (forder2.filter (fun f => featureMatches req f)).length :=
      hfperm.length_eq
    have hbne : ((selectMax (scoreFor req) "" sorder1) != "") =
        ((selectMax (scoreFor req) "" sorder2) != "") :=
      bne_empty_congr hseciff
    unfold complexityScore
    rw [hfl, hbne]
  · intro t ht hbound
    have h0 : 0 < scoreFor req t := hKpos t ht
    constructor
    · unfold selectMax
      exact selectMax_fold_unique (scoreFor req) t porder1 (0, "Generic")
        (hp1.mem_iff.2 ht) (hp1.nodup_iff.2 hKnd)
        (fun u hu hut => hbound u (hp1.subset hu) hut) (by simpa using h0)
    · unfold selectMax
      exact selectMax_fold_unique (scoreFor req) t porder2 (0, "Generic")
        (hp2.mem_iff.2 ht) (hp2.nodup_iff.2 hKnd)
        (fun u hu hut => hbound u (hp2.subset hu) hut) (by simpa using h0)

/-- The classifier's keywords are the extracted keywords of the
lowercased requirement. -/
theorem classify_Keywords (requirement : String) (sDR : DataRange)
    (porder sorder forder : List String) :
    (classifyUserRequirement requirement sDR porder sorder forder).Keywords =
      extractKeywords (toLowerStr requirement) := rfl

/-- The classifier's features are the matching feature names in
iteration order. -/
theorem classify_Features (requirement : String) (sDR : DataRange)
    (porder sorder forder : List String) :
    (classifyUserRequirement requirement sDR porder sorder forder).Features =
      forder.filter (fun f => featureMatches (toLowerStr requirement) f) := rfl

/-- C9 counterexample: on the requirement `"filter report"` the task
types Reporting and DataProcessing tie with score 1, so the primary
pick follows the map iteration order: two runs whose orders are both
permutations of the positive-score key set return different
`PrimaryType` values, refuting determinism. -/
theorem classify_tie_order_dependent_counterexample :
    ["Reporting", "DataProcessing"].Perm (primaryKeysOf (toLowerStr "filter report")) ∧
    ["DataProcessing", "Reporting"].Perm (primaryKeysOf (toLowerStr "filter report")) ∧
    ["DataProcessing"].Perm (secondaryKeysOf (toLowerStr "filter report")
      (selectMax (scoreFor (toLowerStr "filter report")) "Generic"
        ["Reporting", "DataProcessing"])) ∧
    ["Reporting"].Perm (secondaryKeysOf (toLowerStr "filter report")
      (selectMax (scoreFor (toLowerStr "filter report")) "Generic"
        ["DataProcessing", "Reporting"])) ∧
    (classifyUserRequirement "filter report" ⟨"", [], 0, [], [], "", false, "", []⟩
      ["Reporting", "DataProcessing"] ["DataProcessing"] featureNames).PrimaryType =
      "Reporting" ∧
    (classifyUserRequirement "filter report" ⟨"", [], 0, [], [], "", false, "", []⟩
      ["DataProcessing", "Reporting"] ["Reporting"] featureNames).PrimaryType =
      "DataProcessing" ∧
    classifyUserRequirement "filter report" ⟨"", [], 0, [], [], "", false, "", []⟩
      ["Reporting", "DataProcessing"] ["DataProcessing"] featureNames ≠
      classifyUserRequirement "filter report" ⟨"", [], 0, [], [], "", false, "", []⟩
        ["DataProcessing", "Reporting"] ["Reporting"] featureNames := by
  decide

/-- C9 (amended): for a fixed requirement and structure, two runs of
`classifyUserRequirement` under any two map iteration orders agree on
`Keywords` and `Complexity`, agree on `Features` up to order (the
same elements, possibly permuted), agree on whether a `SecondaryType`
exists, and agree on `PrimaryType` whenever one task type's score
strictly exceeds every other's; with tied scores the `PrimaryType`
(and with it the `SecondaryType`) may differ between runs, and the
`Features` order may differ. -/
theorem classify_deterministic_up_to_map_order
    (requirement : String) (sDR1 sDR2 : DataRange)
    (porder1 porder2 sorder1 sorder2 forder1 forder2 : List String)
    (hp1 : porder1.Perm (primaryKeysOf (toLowerStr requirement)))
    (hp2 : porder2.Perm (primaryKeysOf (toLowerStr requirement)))
    (hs1 : sorder1.Perm (secondaryKeysOf (toLowerStr requirement)
      (selectMax (scoreFor (toLowerStr requirement)) "Generic" porder1)))
    (hs2 : sorder2.Perm (secondaryKeysOf (toLowerStr requirement)
      (selectMax (scoreFor (toLowerStr requirement)) "Generic" porder2)))
    (hf1 : forder1.Perm featureNames)
    (hf2 : forder2.Perm featureNames) :
    (classifyUserRequirement requirement sDR1 porder1 sorder1 forder1).Keywords =
      (classifyUserRequirement requirement sDR2 porder2 sorder2 forder2).Keywords ∧
    (classifyUserRequirement requirement sDR1 porder1 sorder1 forder1).Features.Perm
      (classifyUserRequirement requirement sDR2 porder2 sorder2 forder2).Features ∧
    ((classifyUserRequirement requirement sDR1 porder1 sorder1 forder1).SecondaryType
        = "" ↔
      (classifyUserRequirement requirement sDR2 porder2 sorder2 forder2).SecondaryType
        = "") ∧
    (classifyUserRequirement requirement sDR1 porder1 sorder1 forder1).Complexity =
      (classifyUserRequirement requirement sDR2 porder2 sorder2 forder2).Complexity ∧
    (∀ t, t ∈ primaryKeysOf (toLowerStr requirement) →
      (∀ u ∈ primaryKeysOf (toLowerStr requirement), u ≠ t →
        scoreFor (toLowerStr requirement) u < scoreFor (toLowerStr requirement) t) →
      (classifyUserRequirement requirement sDR1 porder1 sorder1 forder1).PrimaryType
          = t ∧
      (classifyUserRequirement requirement sDR2 porder2 sorder2 forder2).PrimaryType
          = t) := by
  have core := classify_core requirement (toLowerStr requirement)
    porder1 porder2 sorder1 sorder2 forder1 forder2 hp1 hp2 hs1 hs2 hf1 hf2
  refine ⟨rfl, ?_, ?_, ?_, ?_⟩
  · rw [classify_Features, classify_Features]
    exact core.1
  · rw [classify_SecondaryType, classify_SecondaryType]
    exact core.2.1
  · exact core.2.2.1
  · intro t ht hbound
    rw [classify_PrimaryType, classify_PrimaryType]
    exact core.2.2.2 t ht hbound

/-- C9 witness: on `"report report filter"` Reporting scores 2 and
strictly beats DataProcessing's 1, so both iteration orders pick
Reporting as the primary type. -/
theorem classify_deterministic_up_to_map_order_witness :
    (classifyUserRequirement "report report filter"
      ⟨"", [], 0, [], [], "", false, "", []⟩
      ["Reporting", "DataProcessing"] ["DataProcessing"] featureNames).PrimaryType =
      "Reporting" ∧
    (classifyUserRequirement "report report filter"
      ⟨"", [], 0, [], [], "", false, "", []⟩
      ["DataProcessing", "Reporting"] ["DataProcessing"] featureNames).PrimaryType =
      "Reporting" :=
  (classify_deterministic_up_to_map_order "report report filter"
    ⟨"", [], 0, [], [], "", false, "", []⟩ ⟨"", [], 0, [], [], "", false, "", []⟩
    ["Reporting", "DataProcessing"] ["DataProcessing", "Reporting"]
    ["DataProcessing"] ["DataProcessing"] featureNames featureNames
    (by decide) (by decide) (by decide) (by decide)
    (List.Perm.refl _) (List.Perm.refl _)).2.2.2.2 "Reporting" (by decide) (by decide)

/-! ## C3 — concurrent requests for the same fingerprint -/

/-- One scheduled action preserves the system invariant. -/
theorem sysStep_inv {α : Type} (key : String) (a : α) (sys : SysState α) (i : Bool)
    (h : SysInv key a sys) : SysInv key a (sysStep key a sys i) := by
  obtain ⟨store, count, ⟨ph0, res0, comp0⟩, ⟨ph1, res1, comp1⟩⟩ := sys
  obtain ⟨hc, hst, hr0, hr1, hf0, hf1, hcz0, hcz1⟩ := h
  cases i <;> cases ph0 <;> cases ph1 <;>
    simp only [sysStep, reqStep] at * <;>
    rcases hst with hst | hst <;>
    simp_all [SysInv, storeLookup_insert_self] <;> omega

/-- The invariant holds after any schedule run from the initial
state. -/
theorem runSched_inv {α : Type} (key : String) (a : α) (sched : List Bool) :
    SysInv key a (runSched key a sched) := by
  have hfold : ∀ (l : List Bool) (sys : SysState α), SysInv key a sys →
      SysInv key a (l.foldl (sysStep key a) sys) := by
    intro l
    induction l with
    | nil => intro sys hs; exact hs
    | cons i rest ih => intro sys hs; exact ih _ (sysStep_inv key a sys i hs)
  exact hfold sched _ (by simp [SysInv, initReq, storeLookup])

/-- C3 counterexample: under the schedule where both requests read
the cache before either writes it, both requests finish and the
analyzer has been called twice — the code performs no in-flight
bookkeeping, so "exactly one underlying computation" is false. -/
theorem concurrent_duplicate_computation_counterexample :
    (runSched "k" (7 : Nat) [false, true, false, false, true, true]).req0.phase =
      ReqPhase.finished ∧
    (runSched "k" (7 : Nat) [false, true, false, false, true, true]).req1.phase =
      ReqPhase.finished ∧
    (runSched "k" (7 : Nat) [false, true, false, false, true, true]).count = 2 := by
  decide

/-- C3 (amended): `App.AnalyzeExcelFile` keeps no in-flight record
and a concurrent request never waits: each request that misses
performs its own computation.  For two concurrent requests for the
same fingerprint: the analyzer runs at most twice (once per request,
and with unlucky interleavings exactly twice); every request that
finishes does return the identical analysis; and when the requests
are serialized the second is served from the cache, giving exactly
one computation. -/
theorem concurrent_requests_no_stampede_prevention {α : Type} (key : String) (a : α) :
    (∀ sched : List Bool, (runSched key a sched).count ≤ 2) ∧
    (∀ sched : List Bool,
      ((runSched key a sched).req0.phase = ReqPhase.finished →
        (runSched key a sched).req0.result = some a) ∧
      ((runSched key a sched).req1.phase = ReqPhase.finished →
        (runSched key a sched).req1.result = some a)) ∧
    ((runSched key a [false, false, false, true]).count = 1 ∧
      (runSched key a [false, false, false, true]).req0.phase = ReqPhase.finished ∧
      (runSched key a [false, false, false, true]).req1.phase = ReqPhase.finished ∧
      (runSched key a [false, false, false, true]).req0.result = some a ∧
      (runSched key a [false, false, false, true]).req1.result = some a ∧
      (runSched key a [false, false, false, true]).req1.computed = false) := by
  refine ⟨?_, ?_, ?_⟩
  · intro sched
    have hinv := runSched_inv key a sched
    obtain ⟨hc, -, -, -, -, -, -, -⟩ := hinv
    rw [hc]
    cases (runSched key a sched).req0.computed <;>
      cases (runSched key a sched).req1.computed <;> simp
  · intro sched
    have hinv := runSched_inv key a sched
    obtain ⟨-, -, -, -, hf0, hf1, -, -⟩ := hinv
    exact ⟨hf0, hf1⟩
  · simp [runSched, sysStep, reqStep, storeLookup, storeInsert, initReq]

/-- C3 witness: in the serialized run the second request finishes
with the cached analysis without having computed. -/
theorem concurrent_requests_no_stampede_prevention_witness :
    (runSched "k" (7 : Nat) [false, false, false, true]).req1.result = some 7 :=
  ((concurrent_requests_no_stampede_prevention "k" 7).2.1
    [false, false, false, true]).2 (by decide)

end ExaMCP
